import Mathlib

/-!
# Verification of the ZPL2 label builder (`src/zpl/label.py`)

Shallow embedding of the `Label` class.  Python strings are modelled as
`List Char`; the document buffer `self.code` is the `code` field of `Label`.
Python numeric arguments (ints or floats) are modelled as exact fractions
`PyNum`; every concrete input used below is dyadic (or an integer), on which
IEEE-754 double arithmetic is exact, so the exact-fraction model agrees with
Python's float arithmetic on those inputs.  A method that can raise returns
the mutated object together with an error option: mutations performed before
a `raise` survive the exception in Python, so the returned state is the
state of the object after the call, also on failure.

The PIL image collaborator (resize, grayscale conversion, luminance
inversion, 1-bit conversion, packed `tobytes`) is not part of the
repository; it is modelled from the spec's interface description (section 6)
together with Pillow's documented raw `1`-mode packing: one bit per pixel,
eight pixels per byte, most-significant bit first, each row padded to a byte
boundary with clear bits.
-/

namespace ZPL

/-- Exact fraction modelling a Python number (int or float).  `den` is
intended positive; the operations below preserve that. -/
structure PyNum where
  num : Int
  den : Int
deriving DecidableEq

/-- A Python int embedded as a number. -/
def PyNum.ofInt (n : Int) : PyNum := ⟨n, 1⟩

instance (n : Nat) : OfNat PyNum n := ⟨⟨(n : Int), 1⟩⟩

/-- Exact product of two Python numbers. -/
def PyNum.mul (a b : PyNum) : PyNum := ⟨a.num * b.num, a.den * b.den⟩

instance : Mul PyNum := ⟨PyNum.mul⟩

/-- Exact quotient of two Python numbers (true division `/`); the sign is
normalised into the numerator so that `den` stays positive. -/
def PyNum.div (a b : PyNum) : PyNum :=
  if b.num < 0 then ⟨-(a.num * b.den), -(a.den * b.num)⟩ else ⟨a.num * b.den, a.den * b.num⟩

/-- Python truthiness of a number: nonzero. -/
def PyNum.truthy (q : PyNum) : Prop := q.num ≠ 0

instance (q : PyNum) : Decidable q.truthy := by unfold PyNum.truthy; infer_instance

/-- `a ≤ n` for a Python number and an int (valid when `den` is positive). -/
def PyNum.leInt (q : PyNum) (n : Int) : Prop := q.num ≤ n * q.den

instance (q : PyNum) (n : Int) : Decidable (q.leInt n) := by unfold PyNum.leInt; infer_instance

/-- The two Python numbers denote the same rational (valid when both `den`
are positive). -/
def PyNum.equiv (a b : PyNum) : Prop := a.num * b.den = b.num * a.den

instance (a b : PyNum) : Decidable (a.equiv b) := by unfold PyNum.equiv; infer_instance

/-- Python `int(x)` (also the conversion done by the `%i` format): truncation
toward zero. -/
def pyint (q : PyNum) : Int := Int.tdiv q.num q.den

/-- Python `math.ceil`. -/
def pyceil (q : PyNum) : Int := -(Int.ediv (-q.num) q.den)

/-- Python `round` on a number: round half to even (used only to state what
the spec asserts; the source never rounds). -/
def pyround (q : PyNum) : Int :=
  let f := Int.ediv q.num q.den
  let r := q.num - f * q.den
  if 2 * r < q.den then f
  else if q.den < 2 * r then f + 1
  else if f % 2 = 0 then f else f + 1

/-- `ceil (n / 8)` on integers, the spec's `bytesPerRow` formula applied to a
whole number of dots. -/
def cdiv8 (n : Int) : Int := -(Int.ediv (-n) 8)

/-- Characters of a string literal. -/
def str (s : String) : List Char := s.data

/-- Rendering of a Python int by `%i` / `%s`. -/
def fmtInt (n : Int) : List Char := (toString n).data

/-- Rendering of a Python number by the `%i` format: truncate, then print. -/
def fmtI (q : PyNum) : List Char := fmtInt (pyint q)

/-- Rendering of a Python `len` by `%i`. -/
def fmtNat (n : Nat) : List Char := (toString n).data

/-- Does `s` start with `pat`? (helper for the substring test). -/
def leadsWith : List Char → List Char → Bool
  | [], _ => true
  | _ :: _, [] => false
  | a :: as, b :: bs => a == b && leadsWith as bs

/-- Python's `pat in s` on strings: `pat` occurs as a contiguous substring
of `s` (the empty pattern always occurs). -/
def pyIn (pat : List Char) : List Char → Bool
  | [] => leadsWith pat []
  | c :: rest => leadsWith pat (c :: rest) || pyIn pat rest

/-- A character matched by the class `[A-Z0-9]`. -/
def isUpperDigit (c : Char) : Bool := ('A' ≤ c && c ≤ 'Z') || ('0' ≤ c && c ≤ '9')

/-- A single character of the class `[A-Z0-9]` (exactly one character, no
trailing newline; this is the shape whose `%c` conversion succeeds). -/
def singleUpperDigit (s : List Char) : Bool :=
  match s with
  | [c] => isUpperDigit c
  | _ => false

/-- `re.match(r'^[A-Z0-9]$', s)` under Python semantics: `$` also matches
just before one trailing newline, so both `"A"` and `"A\n"` match. -/
def fontGlyphTok (s : List Char) : Bool :=
  match s with
  | [c] => isUpperDigit c
  | [c, d] => isUpperDigit c && d == '\n'
  | _ => false

/-- `re.match(r'[A-Z0-9]', s)`: the first character is in the class. -/
def startsUpperDigit (s : List Char) : Bool :=
  match s with
  | c :: _ => isUpperDigit c
  | _ => false

/-- A character matched by the class `[A-Z0-9\_]`. -/
def fontBodyChar (c : Char) : Bool := isUpperDigit c || c == '_'

/-- The alternatives `(FNT|TTF|TTE)` matched as a prefix of the remaining
input (`re.match` does not anchor the end, so trailing text is allowed). -/
def fontExt : List Char → Bool
  | 'F' :: 'N' :: 'T' :: _ => true
  | 'T' :: 'T' :: 'F' :: _ => true
  | 'T' :: 'T' :: 'E' :: _ => true
  | _ => false

/-- After at least one `[A-Z0-9\_]` character: more body characters, then a
dot and one of the extensions. -/
def fontBodyRest : List Char → Bool
  | [] => false
  | '.' :: rest => fontExt rest
  | c :: rest => fontBodyChar c && fontBodyRest rest

/-- `[A-Z0-9\_]+\.(FNT|TTF|TTE)` matched as a prefix. -/
def afterColon : List Char → Bool
  | [] => false
  | c :: rest => fontBodyChar c && fontBodyRest rest

/-- `re.match(r'[REBA]?:[A-Z0-9\_]+\.(FNT|TTF|TTE)', s)`: the external-font
path shape, matched as a prefix of `s`. -/
def fontPathTok : List Char → Bool
  | ':' :: rest => afterColon rest
  | c :: ':' :: rest => (c == 'R' || c == 'E' || c == 'B' || c == 'A') && afterColon rest
  | _ => false

/-- A character matched by the class `[a-zA-Z0-9 ]`. -/
def nameOkChar (c : Char) : Bool :=
  isUpperDigit c || ('a' ≤ c && c ≤ 'z') || c == ' '

/-- After the first class character: further class characters, the end of
the string, or one final trailing newline (Python's `$`). -/
def nameOkTail : List Char → Bool
  | [] => true
  | ['\n'] => true
  | c :: rest => nameOkChar c && nameOkTail rest

/-- `re.match('^[a-zA-Z0-9 ]+$', s)` under Python semantics: nonempty, all
characters in the class, with `$` also matching before one trailing
newline (`"AB\n"` is accepted). -/
def nameOk : List Char → Bool
  | [] => false
  | c :: rest => nameOkChar c && nameOkTail rest

/-- Python errors raised by the methods below.  `typeErr` is the `TypeError`
raised by a `%c` conversion applied to a string whose length is not 1. -/
inductive PyErr where
  | assertFail (msg : String)
  | valueErr (msg : String)
  | typeErr
  | exn (msg : String)
deriving DecidableEq

/-- The `Label` object: physical parameters and the growing command buffer
`self.code`. -/
structure Label where
  height : PyNum
  width : PyNum
  dpmm : PyNum
  code : List Char
deriving DecidableEq

/-- `Label.__init__`. -/
def Label.init (height width dpmm : PyNum) (rotate_180 : Bool) : Label :=
  { height := height, width := width, dpmm := dpmm,
    code := (str "^XA" ++ (if rotate_180 then str "^POI" else [])) }

/-- `Label.origin`. -/
def origin (self : Label) (x y : PyNum) : Label :=
  { self with code := (self.code ++ (str "^FO" ++ fmtI (x * self.dpmm) ++ str "," ++ fmtI (y * self.dpmm))) }

/-- `Label.endorigin`. -/
def endorigin (self : Label) : Label :=
  { self with code := (self.code ++ (str "^FS")) }

/-- `Label.textblock`. -/
def textblock (self : Label) (width : PyNum) (justification : String) (lines : Int) :
    Label × Option PyErr :=
  if justification ∈ (["L", "R", "C", "J"] : List String) then
    ({ self with code := (self.code ++ (str "^FB" ++ fmtI (width * self.dpmm) ++ str "," ++
        fmtInt lines ++ str "," ++ fmtInt 0 ++ str "," ++ justification.data ++ str "," ++ fmtInt 0)) },
      none)
  else (self, some (.assertFail ""))

/-- First stage of `Label.write_text`: the optional `^A` font-selection
fragment, guarded by the truthiness of all four of `char_height`,
`char_width`, `font` and `orientation`. -/
def writeTextFontStage (self : Label) (char_height char_width : PyNum)
    (font orientation : String) : Label × Option PyErr :=
  if char_height.truthy ∧ char_width.truthy ∧ font ≠ "" ∧ orientation ≠ "" then
    if pyIn orientation.data (str "NRIB") then
      if fontGlyphTok font.data then
        if font.data.length = 1 then
          if orientation.data.length = 1 then
            ({ self with code := (self.code ++ (str "^A" ++ font.data ++ orientation.data ++ str "," ++
                fmtI (char_height * self.dpmm) ++ str "," ++ fmtI (char_width * self.dpmm))) }, none)
          else (self, some .typeErr)
        else (self, some .typeErr)
      else if fontPathTok font.data then
        if orientation.data.length = 1 then
          ({ self with code := (self.code ++ (str "^A@" ++ orientation.data ++ str "," ++
              fmtI (char_height * self.dpmm) ++ str "," ++ fmtI (char_width * self.dpmm) ++ str "," ++
              font.data)) }, none)
        else (self, some .typeErr)
      else (self, some (.valueErr "Invalid font."))
    else (self, some (.assertFail "invalid orientation"))
  else (self, none)

/-- The `^FB` line-wrap fragment shared (textually identical source lines) by
`write_text` and `write_field_number`, guarded by the truthiness of
`line_width`. -/
def lineWrapStage (self : Label) (line_width : PyNum) (max_line line_spaces : Int)
    (justification : String) (hanging_indent : Int) : Label × Option PyErr :=
  if line_width.truthy then
    if pyIn justification.data (str "LCRJ") then
      if justification.data.length = 1 then
        ({ self with code := (self.code ++ (str "^FB" ++ fmtI (line_width * self.dpmm) ++ str "," ++
            fmtInt max_line ++ str "," ++ fmtInt line_spaces ++ str "," ++ justification.data ++
            str "," ++ fmtInt hanging_indent)) }, none)
      else (self, some .typeErr)
    else (self, some (.assertFail "invalid justification"))
  else (self, none)

/-- `Label.write_text`. -/
def write_text (self : Label) (text : String) (char_height char_width : PyNum)
    (font orientation : String) (line_width : PyNum) (max_line line_spaces : Int)
    (justification : String) (hanging_indent : Int) : Label × Option PyErr :=
  match writeTextFontStage self char_height char_width font orientation with
  | (l1, some e) => (l1, some e)
  | (l1, none) =>
    match lineWrapStage l1 line_width max_line line_spaces justification hanging_indent with
    | (l2, some e) => (l2, some e)
    | (l2, none) => ({ l2 with code := (l2.code ++ (str "^FD" ++ text.data)) }, none)

/-- `Label.set_default_font`.  The assert only checks the first character
(the regex is unanchored); the subsequent `%c` conversion then raises
`TypeError` unless the string has length exactly 1. -/
def set_default_font (self : Label) (height width : PyNum) (font : String) :
    Label × Option PyErr :=
  if startsUpperDigit font.data then
    if font.data.length = 1 then
      ({ self with code := (self.code ++ (str "^CF" ++ font.data ++ str "," ++
          fmtI (height * self.dpmm) ++ str "," ++ fmtI (width * self.dpmm))) }, none)
    else (self, some .typeErr)
  else (self, some (.assertFail "invalid font"))

/-- An in-memory bitmap: `w`, `h` are `image.size`, `px x y` the luminance
(0 = black, 255 = white) at column `x`, row `y`. -/
structure Img where
  w : Nat
  h : Nat
  px : Nat → Nat → Nat

/-- Modelled from the spec: the image collaborator's
resize-to-exact-pixel-dimensions (nearest-neighbour sampling; the claims
below only use it on constant images, where every resampling filter agrees). -/
def resizeImg (img : Img) (w h : Nat) : Img :=
  { w := w, h := h, px := fun x y => img.px (x * img.w / w) (y * img.h / h) }

/-- Modelled from the spec: the bit for pixel `(x, y)` after grayscale
conversion, luminance inversion (`255 - v`) and 1-bit conversion (threshold
128; dithering is the identity on the bilevel images used here): the bit is
set exactly when the source pixel is dark. -/
def pxBit (img : Img) (x y : Nat) : Bool := decide (img.px x y ≤ 127)

/-- The contribution of pixel column `x` in row `y`: 1 when the position is
inside the row and its bit is set, 0 for clear bits and row padding. -/
def bitN (img : Img) (y x : Nat) : Nat :=
  if x < img.w ∧ pxBit img x y then 1 else 0

/-- Modelled from the spec: one packed byte of row `y` (byte index `b`),
eight pixels per byte, most-significant bit first, padding bits clear. -/
def byteAt (img : Img) (y b : Nat) : Nat :=
  128 * bitN img y (8 * b) + 64 * bitN img y (8 * b + 1) + 32 * bitN img y (8 * b + 2) +
  16 * bitN img y (8 * b + 3) + 8 * bitN img y (8 * b + 4) + 4 * bitN img y (8 * b + 5) +
  2 * bitN img y (8 * b + 6) + bitN img y (8 * b + 7)

/-- The `ceil (w / 8)` packed bytes of row `y`. -/
def rowBytes (img : Img) (y : Nat) : List Nat :=
  (List.range ((img.w + 7) / 8)).map (byteAt img y)

/-- Modelled from the spec: `Image.tobytes()` for a 1-bit image, row-major. -/
def imgBytes (img : Img) : List Nat :=
  ((List.range img.h).map (rowBytes img)).flatten

/-- An upper-case hexadecimal digit. -/
def hexDigit (n : Nat) : Char :=
  if n < 10 then Char.ofNat (48 + n) else Char.ofNat (55 + n)

/-- The two upper-case hex digits of a byte (`bytes.hex().upper()`). -/
def byteHex (b : Nat) : List Char := [hexDigit (b / 16), hexDigit (b % 16)]

/-- `data.hex().upper()` over a byte sequence. -/
def hexUpper (bs : List Nat) : List Char := (bs.map byteHex).flatten

/-- `Label._convert_image`: resize to `(int(width*dpmm), int(height*dpmm))`
pixels, invert, convert to 1-bit, pack and hex-encode.  Any compression type
other than `"A"` raises. -/
def convert_image (self : Label) (image : Img) (width height : PyNum)
    (compression_type : String) : Except PyErr (List Char) :=
  let resized := resizeImg image (pyint (width * self.dpmm)).toNat (pyint (height * self.dpmm)).toNat
  if compression_type = "A" then .ok (hexUpper (imgBytes resized))
  else .error (.exn "unsupported compression type")

/-- `Label.upload_graphic`.  Returns the (possibly proportionally resolved)
height next to the mutated label. -/
def upload_graphic (self : Label) (name : String) (image : Img) (width height0 : PyNum) :
    Label × Except PyErr PyNum :=
  let height := if ¬ height0.truthy
    then PyNum.ofInt (pyint ((PyNum.ofInt image.h).div (PyNum.ofInt image.w) * width))
    else height0
  if 1 ≤ name.data.length ∧ name.data.length ≤ 8 then
    let totalbytes := pyint (PyNum.ofInt (pyceil ((width * self.dpmm).div (PyNum.ofInt 8))) *
      height * self.dpmm)
    let bytesperrow := pyceil ((width * self.dpmm).div (PyNum.ofInt 8))
    match convert_image self image width height "A" with
    | .error e => (self, .error e)
    | .ok data =>
      ({ self with code := (self.code ++ (str "~DG" ++ name.data ++ str ".GRF," ++
          fmtInt totalbytes ++ str "," ++ fmtInt bytesperrow ++ str "," ++ data)) }, .ok height)
  else (self, .error (.assertFail "filename must have length [1:8]"))

/-- `Label.write_graphic`. -/
def write_graphic (self : Label) (image : Img) (width height0 : PyNum)
    (compression_type : String) : Label × Except PyErr PyNum :=
  let height := if ¬ height0.truthy
    then PyNum.ofInt (pyint ((PyNum.ofInt image.h).div (PyNum.ofInt image.w) * width))
    else height0
  let totalbytes := pyint (PyNum.ofInt (pyceil ((width * self.dpmm).div (PyNum.ofInt 8))) *
    height * self.dpmm)
  let bytesperrow := pyceil ((width * self.dpmm).div (PyNum.ofInt 8))
  match convert_image self image width height compression_type with
  | .error e => (self, .error e)
  | .ok data =>
    if compression_type = "A" then
      ({ self with code := (self.code ++ (str "^GFA," ++ fmtNat data.length ++ str "," ++
          fmtInt totalbytes ++ str "," ++ fmtInt bytesperrow ++ str "," ++ data)) }, .ok height)
    else if compression_type = "B" then
      ({ self with code := (self.code ++ (str "^GFB," ++ fmtNat data.length ++ str "," ++
          fmtInt totalbytes ++ str "," ++ fmtInt bytesperrow ++ str "," ++ data)) }, .ok height)
    else (self, .error (.exn "Unsupported compression type."))

/-- `Label.draw_box` (note the source's leading comma after `^GB`). -/
def draw_box (self : Label) (width height thickness : PyNum) (color : String)
    (rounding : PyNum) : Label × Option PyErr :=
  if pyIn color.data (str "BW") then
    if rounding.leInt 8 then
      if color.data.length = 1 then
        ({ self with code := (self.code ++ (str "^GB," ++ fmtI width ++ str "," ++ fmtI height ++
            str "," ++ fmtI thickness ++ str "," ++ color.data ++ str "," ++ fmtI rounding)) }, none)
      else (self, some .typeErr)
    else (self, some (.assertFail "invalid rounding"))
  else (self, some (.assertFail "invalid color"))

/-- `Label.draw_ellipse`. -/
def draw_ellipse (self : Label) (width height thickness : PyNum) (color : String) :
    Label × Option PyErr :=
  if pyIn color.data (str "BW") then
    if color.data.length = 1 then
      ({ self with code := (self.code ++ (str "^GE," ++ fmtI width ++ str "," ++ fmtI height ++
          str "," ++ fmtI thickness ++ str "," ++ color.data)) }, none)
    else (self, some .typeErr)
  else (self, some (.assertFail "invalid color"))

/-- `Label.print_graphic`. -/
def print_graphic (self : Label) (name : String) (scale_x scale_y : Int) : Label :=
  { self with code := (self.code ++ (str "^XG" ++ name.data ++ str "," ++ fmtInt scale_x ++
      str "," ++ fmtInt scale_y)) }

/-- `Label.run_script`: the filename argument is unused by the source; the
fragment is appended literally, `%s` included. -/
def run_script (self : Label) (_filename : String) : Label :=
  { self with code := (self.code ++ (str "^XF%s^FS")) }

/-- First stage of `Label.write_field_number`: like `write_text`'s font stage
but with an unanchored font regex (first character only) followed by the
`%c` length-1 conversions. -/
def fieldNumFontStage (self : Label) (char_height char_width : PyNum)
    (font orientation : String) : Label × Option PyErr :=
  if char_height.truthy ∧ char_width.truthy ∧ font ≠ "" ∧ orientation ≠ "" then
    if startsUpperDigit font.data then
      if pyIn orientation.data (str "NRIB") then
        if font.data.length = 1 then
          if orientation.data.length = 1 then
            ({ self with code := (self.code ++ (str "^A" ++ font.data ++ orientation.data ++
                str "," ++ fmtI (char_height * self.dpmm) ++ str "," ++
                fmtI (char_width * self.dpmm))) }, none)
          else (self, some .typeErr)
        else (self, some .typeErr)
      else (self, some (.assertFail "invalid orientation"))
    else (self, some (.assertFail "invalid font"))
  else (self, none)

/-- `Label.write_field_number`.  The `^FN` fragment is appended before the
name is validated. -/
def write_field_number (self : Label) (number : Int) (name : Option String)
    (char_height char_width : PyNum) (font orientation : String) (line_width : PyNum)
    (max_line line_spaces : Int) (justification : String) (hanging_indent : Int) :
    Label × Option PyErr :=
  match fieldNumFontStage self char_height char_width font orientation with
  | (l1, some e) => (l1, some e)
  | (l1, none) =>
    match lineWrapStage l1 line_width max_line line_spaces justification hanging_indent with
    | (l2, some e) => (l2, some e)
    | (l2, none) =>
      let l3 : Label := { l2 with code := (l2.code ++ (str "^FN" ++ fmtInt number)) }
      match name with
      | none => (l3, none)
      | some nm =>
        if nm = "" then (l3, none)
        else if nameOk nm.data then
          ({ l3 with code := (l3.code ++ (str "\x22" ++ nm.data ++ str "\x22")) }, none)
        else (l3, some (.assertFail "name may only contain alphanumerical characters and spaces"))

/-- The `^BY` bar-width-override fragment: emitted only when
`thin_bar_width` is provided and truthy (a nonempty string). -/
def barWidthFrag (thin_bar_width : Option String) : List Char :=
  match thin_bar_width with
  | none => []
  | some s => if s = "" then [] else str "^BY" ++ s.data

/-- `Label.write_barcode`. -/
def write_barcode (self : Label) (height : Int)
    (barcode_type orientation check_digit pil pila : String)
    (thin_bar_width : Option String) : Label × Option PyErr :=
  if barcode_type ∈ (["2", "3", "U"] : List String) then
    let barcode_zpl : List Char :=
      if barcode_type = "2" then
        str "^B" ++ barcode_type.data ++ orientation.data ++ str "," ++ fmtInt height ++
          str "," ++ pil.data ++ str "," ++ pila.data ++ str "," ++ check_digit.data
      else if barcode_type = "3" then
        str "^B" ++ barcode_type.data ++ orientation.data ++ str "," ++ check_digit.data ++
          str "," ++ fmtInt height ++ str "," ++ pil.data ++ str "," ++ pila.data
      else
        str "^B" ++ barcode_type.data ++ orientation.data ++ str "," ++ fmtInt height ++
          str "," ++ pil.data ++ str "," ++ pila.data ++ str "," ++ check_digit.data
    ({ self with code := (self.code ++ (barWidthFrag thin_bar_width ++ barcode_zpl)) }, none)
  else (self, some (.assertFail "invalid barcode type"))

/-- `Label.dumpZPL`. -/
def dumpZPL (self : Label) : List Char := self.code ++ str "^XZ"

/-- `Label.saveFormat`: splice the `^DF` fragment after the first three
characters of the buffer. -/
def saveFormat (self : Label) (name : String) : Label :=
  { self with code := (self.code.take 3 ++ (str "^DF" ++ name.data ++ str "^FS") ++ self.code.drop 3) }

/-- Label states reachable from construction by any sequence of builder
calls (the state after a call that raised is the mutated object, so failed
calls are included). -/
inductive Reachable : Label → Prop where
  | cinit (height width dpmm : PyNum) (rotate_180 : Bool) :
      Reachable (Label.init height width dpmm rotate_180)
  | corigin {l : Label} (x y : PyNum) : Reachable l → Reachable (origin l x y)
  | cendorigin {l : Label} : Reachable l → Reachable (endorigin l)
  | ctextblock {l : Label} (w : PyNum) (j : String) (n : Int) :
      Reachable l → Reachable (textblock l w j n).1
  | cwrite_text {l : Label} (text : String) (ch cw : PyNum) (f o : String) (lw : PyNum)
      (ml ls : Int) (j : String) (hi : Int) :
      Reachable l → Reachable (write_text l text ch cw f o lw ml ls j hi).1
  | cset_default_font {l : Label} (h w : PyNum) (f : String) :
      Reachable l → Reachable (set_default_font l h w f).1
  | cupload_graphic {l : Label} (nm : String) (img : Img) (w h : PyNum) :
      Reachable l → Reachable (upload_graphic l nm img w h).1
  | cwrite_graphic {l : Label} (img : Img) (w h : PyNum) (ct : String) :
      Reachable l → Reachable (write_graphic l img w h ct).1
  | cdraw_box {l : Label} (w h t : PyNum) (c : String) (r : PyNum) :
      Reachable l → Reachable (draw_box l w h t c r).1
  | cdraw_ellipse {l : Label} (w h t : PyNum) (c : String) :
      Reachable l → Reachable (draw_ellipse l w h t c).1
  | cprint_graphic {l : Label} (nm : String) (sx sy : Int) :
      Reachable l → Reachable (print_graphic l nm sx sy)
  | crun_script {l : Label} (fn : String) : Reachable l → Reachable (run_script l fn)
  | cwrite_field_number {l : Label} (num : Int) (nm : Option String) (ch cw : PyNum)
      (f o : String) (lw : PyNum) (ml ls : Int) (j : String) (hi : Int) :
      Reachable l → Reachable (write_field_number l num nm ch cw f o lw ml ls j hi).1
  | cwrite_barcode {l : Label} (hh : Int) (bt o cd pl pla : String) (tb : Option String) :
      Reachable l → Reachable (write_barcode l hh bt o cd pl pla tb).1

/-! ## Buffer-extension lemmas: every call only appends to the buffer
(the returned state is `old buffer ++ t` for some `t`, also on failure). -/

theorem writeTextFontStage_code (self : Label) (ch cw : PyNum) (f o : String) :
    ∃ t, (writeTextFontStage self ch cw f o).1.code = self.code ++ t := by
  unfold writeTextFontStage
  repeat' split
  all_goals first
    | exact ⟨[], (List.append_nil _).symm⟩
    | exact ⟨_, rfl⟩

theorem lineWrapStage_code (self : Label) (lw : PyNum) (ml ls : Int) (j : String) (hi : Int) :
    ∃ t, (lineWrapStage self lw ml ls j hi).1.code = self.code ++ t := by
  unfold lineWrapStage
  repeat' split
  all_goals first
    | exact ⟨[], (List.append_nil _).symm⟩
    | exact ⟨_, rfl⟩

theorem fieldNumFontStage_code (self : Label) (ch cw : PyNum) (f o : String) :
    ∃ t, (fieldNumFontStage self ch cw f o).1.code = self.code ++ t := by
  unfold fieldNumFontStage
  repeat' split
  all_goals first
    | exact ⟨[], (List.append_nil _).symm⟩
    | exact ⟨_, rfl⟩

theorem write_text_code (self : Label) (text : String) (ch cw : PyNum) (f o : String)
    (lw : PyNum) (ml ls : Int) (j : String) (hi : Int) :
    ∃ t, (write_text self text ch cw f o lw ml ls j hi).1.code = self.code ++ t := by
  obtain ⟨t1, h1⟩ := writeTextFontStage_code self ch cw f o
  rcases hs : writeTextFontStage self ch cw f o with ⟨l1, e1⟩
  rw [hs] at h1
  have ha : l1.code = self.code ++ t1 := h1
  obtain ⟨t2, h2⟩ := lineWrapStage_code l1 lw ml ls j hi
  rcases hw : lineWrapStage l1 lw ml ls j hi with ⟨l2, e2⟩
  rw [hw] at h2
  have hb : l2.code = l1.code ++ t2 := h2
  cases e1 with
  | some e => exact ⟨t1, by simp [write_text, hs, ha]⟩
  | none =>
    cases e2 with
    | some e => exact ⟨t1 ++ t2, by simp [write_text, hs, hw, hb, ha, List.append_assoc]⟩
    | none =>
      exact ⟨t1 ++ (t2 ++ (str "^FD" ++ text.data)),
        by simp [write_text, hs, hw, hb, ha, List.append_assoc]⟩

theorem write_field_number_code (self : Label) (num : Int) (nm : Option String)
    (ch cw : PyNum) (f o : String) (lw : PyNum) (ml ls : Int) (j : String) (hi : Int) :
    ∃ t, (write_field_number self num nm ch cw f o lw ml ls j hi).1.code = self.code ++ t := by
  obtain ⟨t1, h1⟩ := fieldNumFontStage_code self ch cw f o
  rcases hs : fieldNumFontStage self ch cw f o with ⟨l1, e1⟩
  rw [hs] at h1
  have ha : l1.code = self.code ++ t1 := h1
  obtain ⟨t2, h2⟩ := lineWrapStage_code l1 lw ml ls j hi
  rcases hw : lineWrapStage l1 lw ml ls j hi with ⟨l2, e2⟩
  rw [hw] at h2
  have hb : l2.code = l1.code ++ t2 := h2
  cases e1 with
  | some e => exact ⟨t1, by simp [write_field_number, hs, ha]⟩
  | none =>
    cases e2 with
    | some e =>
      exact ⟨t1 ++ t2, by simp [write_field_number, hs, hw, hb, ha, List.append_assoc]⟩
    | none =>
      rcases nm with _ | nm
      · exact ⟨t1 ++ (t2 ++ (str "^FN" ++ fmtInt num)),
          by simp [write_field_number, hs, hw, hb, ha, List.append_assoc]⟩
      · by_cases hnm : nm = ""
        · exact ⟨t1 ++ (t2 ++ (str "^FN" ++ fmtInt num)),
            by simp [write_field_number, hs, hw, hb, ha, hnm, List.append_assoc]⟩
        · by_cases hok : nameOk nm.data = true
          · exact ⟨t1 ++ (t2 ++ ((str "^FN" ++ fmtInt num) ++ (str "\x22" ++ nm.data ++ str "\x22"))),
              by simp [write_field_number, hs, hw, hb, ha, hnm, hok, List.append_assoc]⟩
          · exact ⟨t1 ++ (t2 ++ (str "^FN" ++ fmtInt num)),
              by simp [write_field_number, hs, hw, hb, ha, hnm, hok, List.append_assoc]⟩

theorem textblock_code (self : Label) (w : PyNum) (j : String) (n : Int) :
    ∃ t, (textblock self w j n).1.code = self.code ++ t := by
  unfold textblock
  split
  · exact ⟨_, rfl⟩
  · exact ⟨[], (List.append_nil _).symm⟩

theorem set_default_font_code (self : Label) (h w : PyNum) (f : String) :
    ∃ t, (set_default_font self h w f).1.code = self.code ++ t := by
  unfold set_default_font
  repeat' split
  all_goals first
    | exact ⟨[], (List.append_nil _).symm⟩
    | exact ⟨_, rfl⟩

theorem upload_graphic_code (self : Label) (nm : String) (img : Img) (w h : PyNum) :
    ∃ t, (upload_graphic self nm img w h).1.code = self.code ++ t := by
  simp only [upload_graphic]
  repeat' split
  all_goals first
    | exact ⟨[], (List.append_nil _).symm⟩
    | exact ⟨_, rfl⟩

theorem write_graphic_code (self : Label) (img : Img) (w h : PyNum) (ct : String) :
    ∃ t, (write_graphic self img w h ct).1.code = self.code ++ t := by
  simp only [write_graphic]
  repeat' split
  all_goals first
    | exact ⟨[], (List.append_nil _).symm⟩
    | exact ⟨_, rfl⟩

theorem draw_box_code (self : Label) (w h t : PyNum) (c : String) (r : PyNum) :
    ∃ u, (draw_box self w h t c r).1.code = self.code ++ u := by
  unfold draw_box
  repeat' split
  all_goals first
    | exact ⟨[], (List.append_nil _).symm⟩
    | exact ⟨_, rfl⟩

theorem draw_ellipse_code (self : Label) (w h t : PyNum) (c : String) :
    ∃ u, (draw_ellipse self w h t c).1.code = self.code ++ u := by
  unfold draw_ellipse
  repeat' split
  all_goals first
    | exact ⟨[], (List.append_nil _).symm⟩
    | exact ⟨_, rfl⟩

theorem write_barcode_code (self : Label) (hh : Int) (bt o cd pl pla : String)
    (tb : Option String) :
    ∃ t, (write_barcode self hh bt o cd pl pla tb).1.code = self.code ++ t := by
  unfold write_barcode
  repeat' split
  all_goals first
    | exact ⟨[], (List.append_nil _).symm⟩
    | exact ⟨_, rfl⟩

/-- Appending to a buffer that starts with `^XA` keeps the `^XA` start. -/
theorem exists_ext {a : List Char} (r : List Char) (h : a = str "^XA" ++ r)
    (t : List Char) : ∃ u, a ++ t = str "^XA" ++ u :=
  ⟨r ++ t, by rw [h, List.append_assoc]⟩

/-- Every reachable buffer begins with the start-of-label marker `^XA`. -/
theorem reachable_code_eq (l : Label) (h : Reachable l) :
    ∃ rest, l.code = str "^XA" ++ rest := by
  induction h with
  | cinit height width dpmm rotate_180 => exact ⟨_, rfl⟩
  | corigin x y _ ih => obtain ⟨r, hr⟩ := ih; exact exists_ext r hr _
  | cendorigin _ ih => obtain ⟨r, hr⟩ := ih; exact exists_ext r hr _
  | ctextblock w j n _ ih =>
    obtain ⟨r, hr⟩ := ih
    obtain ⟨t, ht⟩ := textblock_code _ w j n
    exact ⟨r ++ t, by rw [ht, hr, List.append_assoc]⟩
  | cwrite_text text ch cw f o lw ml ls j hi _ ih =>
    obtain ⟨r, hr⟩ := ih
    obtain ⟨t, ht⟩ := write_text_code _ text ch cw f o lw ml ls j hi
    exact ⟨r ++ t, by rw [ht, hr, List.append_assoc]⟩
  | cset_default_font hh ww f _ ih =>
    obtain ⟨r, hr⟩ := ih
    obtain ⟨t, ht⟩ := set_default_font_code _ hh ww f
    exact ⟨r ++ t, by rw [ht, hr, List.append_assoc]⟩
  | cupload_graphic nm img w hh _ ih =>
    obtain ⟨r, hr⟩ := ih
    obtain ⟨t, ht⟩ := upload_graphic_code _ nm img w hh
    exact ⟨r ++ t, by rw [ht, hr, List.append_assoc]⟩
  | cwrite_graphic img w hh ct _ ih =>
    obtain ⟨r, hr⟩ := ih
    obtain ⟨t, ht⟩ := write_graphic_code _ img w hh ct
    exact ⟨r ++ t, by rw [ht, hr, List.append_assoc]⟩
  | cdraw_box w hh t c rr _ ih =>
    obtain ⟨r, hr⟩ := ih
    obtain ⟨u, hu⟩ := draw_box_code _ w hh t c rr
    exact ⟨r ++ u, by rw [hu, hr, List.append_assoc]⟩
  | cdraw_ellipse w hh t c _ ih =>
    obtain ⟨r, hr⟩ := ih
    obtain ⟨u, hu⟩ := draw_ellipse_code _ w hh t c
    exact ⟨r ++ u, by rw [hu, hr, List.append_assoc]⟩
  | cprint_graphic nm sx sy _ ih =>
    obtain ⟨r, hr⟩ := ih
    exact exists_ext r hr _
  | crun_script fn _ ih =>
    obtain ⟨r, hr⟩ := ih
    exact exists_ext r hr _
  | cwrite_field_number num nm ch cw f o lw ml ls j hi _ ih =>
    obtain ⟨r, hr⟩ := ih
    obtain ⟨t, ht⟩ := write_field_number_code _ num nm ch cw f o lw ml ls j hi
    exact ⟨r ++ t, by rw [ht, hr, List.append_assoc]⟩
  | cwrite_barcode hh bt o cd pl pla tb _ ih =>
    obtain ⟨r, hr⟩ := ih
    obtain ⟨t, ht⟩ := write_barcode_code _ hh bt o cd pl pla tb
    exact ⟨r ++ t, by rw [ht, hr, List.append_assoc]⟩

/-- C5: on every buffer state reachable by any sequence of append operations
after construction, `saveFormat name` inserts the named-format-declaration
fragment `^DF<name>^FS` immediately after the leading `^XA` start-of-label
marker, and everything that followed `^XA` before the call follows the
inserted fragment unchanged. -/
theorem saveFormat_inserts_after_XA (l : Label) (hl : Reachable l) (name : String) :
    ∃ rest, l.code = str "^XA" ++ rest ∧
      (saveFormat l name).code = str "^XA" ++ (str "^DF" ++ name.data ++ str "^FS") ++ rest := by
  obtain ⟨rest, hr⟩ := reachable_code_eq l hl
  refine ⟨rest, hr, ?_⟩
  unfold saveFormat
  show (l.code.take 3 ++ (str "^DF" ++ name.data ++ str "^FS") ++ l.code.drop 3)
      = str "^XA" ++ (str "^DF" ++ name.data ++ str "^FS") ++ rest
  have h3 : (3 : Nat) = (str "^XA").length := rfl
  rw [hr, h3, List.take_left, List.drop_left, List.append_assoc, List.append_assoc]

/-- Witness for C5 at a concrete reachable state. -/
theorem saveFormat_inserts_after_XA_witness :
    ∃ rest, (origin (Label.init 65 110 12 false) 10 5).code = str "^XA" ++ rest ∧
      (saveFormat (origin (Label.init 65 110 12 false) 10 5) "FMT").code
        = str "^XA" ++ (str "^DF" ++ "FMT".data ++ str "^FS") ++ rest :=
  saveFormat_inserts_after_XA _ (Reachable.corigin 10 5 (Reachable.cinit 65 110 12 false)) "FMT"

/-! ## Atomicity of failed appends (C1) -/

/-- A failing `write_text` font stage leaves the buffer unchanged (all its
raises happen before its append). -/
theorem writeTextFontStage_err (self : Label) (ch cw : PyNum) (f o : String) :
    (writeTextFontStage self ch cw f o).2 ≠ none → (writeTextFontStage self ch cw f o).1 = self := by
  unfold writeTextFontStage
  repeat' split
  all_goals intro h
  all_goals first | rfl | exact absurd rfl h

/-- A failing `write_field_number` font stage leaves the buffer unchanged. -/
theorem fieldNumFontStage_err (self : Label) (ch cw : PyNum) (f o : String) :
    (fieldNumFontStage self ch cw f o).2 ≠ none → (fieldNumFontStage self ch cw f o).1 = self := by
  unfold fieldNumFontStage
  repeat' split
  all_goals intro h
  all_goals first | rfl | exact absurd rfl h

/-- With a falsy `line_width` the line-wrap stage does nothing. -/
theorem lineWrapStage_zero (self : Label) (ml ls : Int) (j : String) (hi : Int) :
    lineWrapStage self 0 ml ls j hi = (self, none) := by
  unfold lineWrapStage
  rw [if_neg]
  exact fun h => h rfl

/-- C1 (counterexample): `write_text` with a valid font fragment and an
invalid justification raises only after the `^A` fragment was appended, so
the buffer of the failed call differs from the buffer before it. -/
theorem write_text_partial_mutation_cex :
    (write_text (Label.init 65 90 12 false) "HI" 5 4 "0" "N" 10 1 0 "X" 0).2
      = some (PyErr.assertFail "invalid justification")
    ∧ (write_text (Label.init 65 90 12 false) "HI" 5 4 "0" "N" 10 1 0 "X" 0).1.code
      = str "^XA^A0N,60,48"
    ∧ (write_text (Label.init 65 90 12 false) "HI" 5 4 "0" "N" 10 1 0 "X" 0).1.code
      ≠ (Label.init 65 90 12 false).code := by decide

/-- C1 (amended): a validation failure leaves the buffer unchanged for
`textblock`, `set_default_font`, `upload_graphic`, `write_graphic`,
`draw_box`, `draw_ellipse` and `write_barcode` (and `origin` never fails);
for `write_text` and `write_field_number` this holds whenever the
line-wrap fragment is not requested (and, for `write_field_number`, no name
is passed) — with a line-wrap request the justification check can fail
after the font fragment was already appended, and a bad name fails after
the `^FN` fragment was appended. -/
theorem failed_append_atomicity_amended :
    (∀ (l : Label) (w : PyNum) (j : String) (n : Int),
      (textblock l w j n).2 ≠ none → (textblock l w j n).1 = l)
    ∧ (∀ (l : Label) (h w : PyNum) (f : String),
      (set_default_font l h w f).2 ≠ none → (set_default_font l h w f).1 = l)
    ∧ (∀ (l : Label) (nm : String) (img : Img) (w h : PyNum) (e : PyErr),
      (upload_graphic l nm img w h).2 = .error e → (upload_graphic l nm img w h).1 = l)
    ∧ (∀ (l : Label) (img : Img) (w h : PyNum) (ct : String) (e : PyErr),
      (write_graphic l img w h ct).2 = .error e → (write_graphic l img w h ct).1 = l)
    ∧ (∀ (l : Label) (w h t c r),
      (draw_box l w h t c r).2 ≠ none → (draw_box l w h t c r).1 = l)
    ∧ (∀ (l : Label) (w h t c),
      (draw_ellipse l w h t c).2 ≠ none → (draw_ellipse l w h t c).1 = l)
    ∧ (∀ (l : Label) (hh : Int) (bt o cd pl pla : String) (tb : Option String),
      (write_barcode l hh bt o cd pl pla tb).2 ≠ none → (write_barcode l hh bt o cd pl pla tb).1 = l)
    ∧ (∀ (l : Label) (text : String) (ch cw : PyNum) (f o : String) (ml ls : Int)
        (j : String) (hi : Int),
      (write_text l text ch cw f o 0 ml ls j hi).2 ≠ none →
        (write_text l text ch cw f o 0 ml ls j hi).1 = l)
    ∧ (∀ (l : Label) (num : Int) (ch cw : PyNum) (f o : String) (ml ls : Int)
        (j : String) (hi : Int),
      (write_field_number l num none ch cw f o 0 ml ls j hi).2 ≠ none →
        (write_field_number l num none ch cw f o 0 ml ls j hi).1 = l) := by
  refine ⟨?_, ?_, ?_, ?_, ?_, ?_, ?_, ?_, ?_⟩
  · intro l w j n h
    unfold textblock at h ⊢
    split at h <;> simp_all
  · intro l hh w f h
    unfold set_default_font at h ⊢
    repeat' split at h
    all_goals simp_all
  · intro l nm img w h e hh
    by_cases hname : 1 ≤ nm.data.length ∧ nm.data.length ≤ 8
    · exfalso
      rw [upload_graphic, if_pos hname] at hh
      simp [convert_image] at hh
    · rw [upload_graphic, if_neg hname]
  · intro l img w h ct e hh
    simp only [write_graphic, convert_image] at hh ⊢
    repeat' split at hh
    all_goals simp_all
  · intro l w h t c r hh
    unfold draw_box at hh ⊢
    repeat' split at hh
    all_goals simp_all
  · intro l w h t c hh
    unfold draw_ellipse at hh ⊢
    repeat' split at hh
    all_goals simp_all
  · intro l hh bt o cd pl pla tb h
    unfold write_barcode at h ⊢
    split at h <;> simp_all
  · intro l text ch cw f o ml ls j hi h
    rcases hs : writeTextFontStage l ch cw f o with ⟨l1, e1⟩
    cases e1 with
    | some e =>
      have h1 := writeTextFontStage_err l ch cw f o (by rw [hs]; simp)
      rw [hs] at h1
      simp [write_text, hs, h1]
    | none =>
      exfalso
      apply h
      simp [write_text, hs, lineWrapStage_zero]
  · intro l num ch cw f o ml ls j hi h
    rcases hs : fieldNumFontStage l ch cw f o with ⟨l1, e1⟩
    cases e1 with
    | some e =>
      have h1 := fieldNumFontStage_err l ch cw f o (by rw [hs]; simp)
      rw [hs] at h1
      simp [write_field_number, hs, h1]
    | none =>
      exfalso
      apply h
      simp [write_field_number, hs, lineWrapStage_zero]

/-- Witness for the amended C1 at a concrete failing `textblock` call. -/
theorem failed_append_atomicity_amended_witness :
    (textblock (Label.init 65 110 12 false) 10 "X" 1).2 ≠ none
    ∧ (textblock (Label.init 65 110 12 false) 10 "X" 1).1 = Label.init 65 110 12 false :=
  ⟨by decide, failed_append_atomicity_amended.1 (Label.init 65 110 12 false) 10 "X" 1 (by decide)⟩

/-! ## Barcode layout and the bar-width override (C4) -/

/-- C4 (counterexample): `thin_bar_width` provided as the falsy empty string
yields no `^BY` fragment, refuting "prepended exactly when provided". -/
theorem barcode_thin_provided_cex :
    (write_barcode (Label.init 65 110 12 false) 50 "2" "N" "N" "Y" "N" (some "")).1.code
      = str "^XA^B2N,50,Y,N,N"
    ∧ pyIn (str "^BY")
        (write_barcode (Label.init 65 110 12 false) 50 "2" "N" "N" "Y" "N" (some "")).1.code
      = false
    ∧ (some "" : Option String) ≠ none := by decide

/-- C4 (amended): `write_barcode` fails on any type outside `{2, 3, U}`; for
type `2` the fragment orders orientation, height, interpretation-line flag,
above-line flag, check-digit; for type `3` it orders orientation,
check-digit, height, interpretation-line flag, above-line flag; and the
`^BY` override is prepended exactly when `thin_bar_width` is provided and
truthy (a nonempty string). -/
theorem write_barcode_amended :
    (∀ (l : Label) (hh : Int) (bt o cd pl pla : String) (tb : Option String),
      bt ∉ (["2", "3", "U"] : List String) →
        write_barcode l hh bt o cd pl pla tb = (l, some (.assertFail "invalid barcode type")))
    ∧ (∀ (l : Label) (hh : Int) (o cd pl pla : String) (tb : Option String),
      write_barcode l hh "2" o cd pl pla tb
        = ({ l with code := l.code ++ (barWidthFrag tb ++ (str "^B" ++ str "2" ++ o.data ++
            str "," ++ fmtInt hh ++ str "," ++ pl.data ++ str "," ++ pla.data ++ str "," ++
            cd.data)) }, none))
    ∧ (∀ (l : Label) (hh : Int) (o cd pl pla : String) (tb : Option String),
      write_barcode l hh "3" o cd pl pla tb
        = ({ l with code := l.code ++ (barWidthFrag tb ++ (str "^B" ++ str "3" ++ o.data ++
            str "," ++ cd.data ++ str "," ++ fmtInt hh ++ str "," ++ pl.data ++ str "," ++
            pla.data)) }, none))
    ∧ barWidthFrag none = []
    ∧ barWidthFrag (some "") = []
    ∧ (∀ s : String, s ≠ "" → barWidthFrag (some s) = str "^BY" ++ s.data) := by
  refine ⟨?_, ?_, ?_, rfl, rfl, ?_⟩
  · intro l hh bt o cd pl pla tb h
    unfold write_barcode
    rw [if_neg h]
  · intro l hh o cd pl pla tb
    simp [write_barcode, str]
  · intro l hh o cd pl pla tb
    simp [write_barcode, str]
  · intro s hs
    simp [barWidthFrag, hs]

/-- Witness for the amended C4: a rejected type and both concrete layouts. -/
theorem write_barcode_amended_witness :
    ("Q" ∉ (["2", "3", "U"] : List String)
      ∧ write_barcode (Label.init 65 110 12 false) 50 "Q" "N" "N" "Y" "N" none
          = (Label.init 65 110 12 false, some (.assertFail "invalid barcode type")))
    ∧ ("3" ≠ ""
      ∧ barWidthFrag (some "3") = str "^BY" ++ "3".data) :=
  ⟨⟨by decide, write_barcode_amended.1 (Label.init 65 110 12 false) 50 "Q" "N" "N" "Y" "N" none
      (by decide)⟩,
   ⟨by decide, write_barcode_amended.2.2.2.2.2 "3" (by decide)⟩⟩

/-! ## Default-font validation (C8) -/

/-- C8 (counterexample): `'a'` is a single alphanumeric character, yet
`set_default_font` rejects it (the regex class is `[A-Z0-9]` only), leaving
the buffer unchanged. -/
theorem set_default_font_lowercase_cex :
    set_default_font (Label.init 65 110 12 false) 5 4 "a"
      = (Label.init 65 110 12 false, some (PyErr.assertFail "invalid font"))
    ∧ 'a'.isAlphanum = true := by decide

/-- C8 (amended): `set_default_font` appends the `^CF` fragment exactly for
a single character in `[A-Z0-9]`; a longer string whose first character is
in the class passes the assert and then fails in the `%c` conversion
(`TypeError`), and every other string fails the assert. -/
theorem set_default_font_amended :
    ∀ (l : Label) (h w : PyNum) (font : String),
      set_default_font l h w font
        = if singleUpperDigit font.data then
            ({ l with code := l.code ++ (str "^CF" ++ font.data ++ str "," ++
                fmtI (h * l.dpmm) ++ str "," ++ fmtI (w * l.dpmm)) }, none)
          else if startsUpperDigit font.data then (l, some .typeErr)
          else (l, some (.assertFail "invalid font")) := by
  intro l h w font
  obtain ⟨cs⟩ := font
  rcases cs with _ | ⟨c, _ | ⟨c2, rest⟩⟩
  · simp [set_default_font, singleUpperDigit, startsUpperDigit]
  · by_cases hc : isUpperDigit c <;>
      simp [set_default_font, singleUpperDigit, startsUpperDigit, hc]
  · by_cases hc : isUpperDigit c <;>
      simp [set_default_font, singleUpperDigit, startsUpperDigit, hc]

/-! ## Coordinate conversion in `origin` (C9) -/

/-- C9 (counterexample): `origin(0.8125, 0)` at 12 dots/mm embeds the
truncated value 9, not the rounded value 10 (0.8125 · 12 = 9.75). -/
theorem origin_rounding_cex :
    (origin (Label.init 65 110 12 false) ⟨13, 16⟩ 0).code = str "^XA^FO9,0"
    ∧ pyround ((⟨13, 16⟩ : PyNum) * (12 : PyNum)) = 10
    ∧ (9 : Int) ≠ 10 := by decide

/-- C9 (amended): `origin` converts at the point of use but by truncation
(`int`), not rounding: the fragment embeds `int(x*dpmm)` and `int(y*dpmm)`;
truncation and rounding agree whenever the dot value is a whole number, and
in particular `origin(10, 5)` at 12 dots/mm embeds `120,60`. -/
theorem origin_conversion_amended :
    (∀ (l : Label) (x y : PyNum),
      origin l x y = { l with code := l.code ++ (str "^FO" ++ fmtInt (pyint (x * l.dpmm)) ++
        str "," ++ fmtInt (pyint (y * l.dpmm))) })
    ∧ (∀ (q : PyNum) (n : Int), 0 < q.den → q.num = n * q.den →
        pyint q = n ∧ pyround q = n)
    ∧ (origin (Label.init 65 110 12 false) 10 5).code = str "^XA^FO120,60" := by
  refine ⟨fun l x y => rfl, ?_, by decide⟩
  intro q n hd h
  have hne : q.den ≠ 0 := ne_of_gt hd
  constructor
  · show Int.tdiv q.num q.den = n
    rw [h, Int.mul_tdiv_cancel _ hne]
  · have hf : (n * q.den).ediv q.den = n := Int.mul_ediv_cancel n hne
    unfold pyround
    rw [h]
    simp [hf, hd]

/-- Witness for the amended C9 on a whole dot value. -/
theorem origin_conversion_amended_witness :
    (0 : Int) < (⟨120, 1⟩ : PyNum).den ∧ (⟨120, 1⟩ : PyNum).num = 120 * (⟨120, 1⟩ : PyNum).den
    ∧ (pyint ⟨120, 1⟩ = 120 ∧ pyround ⟨120, 1⟩ = 120) :=
  ⟨by decide, by decide, origin_conversion_amended.2.1 ⟨120, 1⟩ 120 (by decide) (by decide)⟩

/-! ## Falsy character dimensions in `write_text` (C10) -/

/-- C10: with a falsy `char_height` (or `char_width`) no font fragment is
emitted and no font or orientation validation happens — the passed font and
orientation are ignored — and only the optional `^FB` fragment and the
`^FD` fragment are appended. -/
theorem write_text_falsy_skips_font :
    (∀ (l : Label) (text : String) (cw : PyNum) (f f2 o o2 : String) (lw : PyNum)
        (ml ls : Int) (j : String) (hi : Int),
      write_text l text 0 cw f o lw ml ls j hi = write_text l text 0 cw f2 o2 lw ml ls j hi)
    ∧ (∀ (l : Label) (text : String) (ch : PyNum) (f f2 o o2 : String) (lw : PyNum)
        (ml ls : Int) (j : String) (hi : Int),
      write_text l text ch 0 f o lw ml ls j hi = write_text l text ch 0 f2 o2 lw ml ls j hi)
    ∧ (∀ (l : Label) (text : String) (cw : PyNum) (f o : String) (ml ls : Int)
        (j : String) (hi : Int),
      write_text l text 0 cw f o 0 ml ls j hi
        = ({ l with code := l.code ++ (str "^FD" ++ text.data) }, none))
    ∧ (∀ (l : Label) (text : String) (cw : PyNum) (f o : String) (lw : PyNum)
        (ml ls : Int) (j : String) (hi : Int),
      lw.truthy → j ∈ (["L", "C", "R", "J"] : List String) →
      write_text l text 0 cw f o lw ml ls j hi
        = ({ l with code := l.code ++ (str "^FB" ++ fmtI (lw * l.dpmm) ++ str "," ++
            fmtInt ml ++ str "," ++ fmtInt ls ++ str "," ++ j.data ++ str "," ++ fmtInt hi) ++
            (str "^FD" ++ text.data) }, none)) := by
  have h0 : ¬ (0 : PyNum).truthy := by decide
  refine ⟨?_, ?_, ?_, ?_⟩
  · intro l text cw f f2 o o2 lw ml ls j hi
    simp [write_text, writeTextFontStage, h0]
  · intro l text ch f f2 o o2 lw ml ls j hi
    simp [write_text, writeTextFontStage, h0]
  · intro l text cw f o ml ls j hi
    simp [write_text, writeTextFontStage, lineWrapStage, h0]
  · intro l text cw f o lw ml ls j hi hlw hj
    fin_cases hj <;>
      simp [write_text, writeTextFontStage, lineWrapStage, h0, hlw, pyIn, leadsWith, str,
        List.append_assoc]

/-- Witness for C10 with a concrete line-wrap request. -/
theorem write_text_falsy_skips_font_witness :
    (10 : PyNum).truthy ∧ "C" ∈ (["L", "C", "R", "J"] : List String)
    ∧ write_text (Label.init 65 110 12 false) "T" 0 4 "Z" "Q" 10 1 0 "C" 0
        = ({ (Label.init 65 110 12 false) with
            code := (Label.init 65 110 12 false).code ++ (str "^FB" ++
              fmtI ((10 : PyNum) * (Label.init 65 110 12 false).dpmm) ++ str "," ++
              fmtInt 1 ++ str "," ++ fmtInt 0 ++ str "," ++ "C".data ++ str "," ++ fmtInt 0) ++
            (str "^FD" ++ "T".data) }, none) :=
  ⟨by decide, by decide,
    write_text_falsy_skips_font.2.2.2 (Label.init 65 110 12 false) "T" 4 "Z" "Q" 10 1 0 "C" 0
      (by decide) (by decide)⟩

/-! ## Font shapes accepted by `write_text` (C6) -/

/-- C6 (counterexample): `'a'` is a single alphanumeric character, yet the
font-selection stage of `write_text` rejects it with "Invalid font." (the
glyph-identifier class is upper-case `[A-Z0-9]` only); and `"A\n"`, which is
not a single alphanumeric character, passes the regex (Python's `$` matches
before a trailing newline) and then raises `TypeError` in the `%c`
conversion, not `InvalidArgument`. -/
theorem write_text_font_lowercase_cex :
    (write_text (Label.init 65 110 12 false) "X" 5 4 "a" "N" 0 1 0 "L" 0).2
      = some (PyErr.valueErr "Invalid font.")
    ∧ (write_text (Label.init 65 110 12 false) "X" 5 4 "a" "N" 0 1 0 "L" 0).1.code = str "^XA"
    ∧ 'a'.isAlphanum = true
    ∧ fontGlyphTok (str "a") = false
    ∧ (write_text (Label.init 65 110 12 false) "X" 5 4 "A\n" "N" 0 1 0 "L" 0).2
      = some PyErr.typeErr := by decide

/-- C6 (amended): when the font-selection fragment is attempted (truthy
heights, nonempty font, valid orientation), the font validation accepts
exactly two shapes — a full match of `^[A-Z0-9]$` under Python semantics
(one upper-case letter or digit, optionally followed by a single trailing
newline; not every alphanumeric), or a prefix match of
`[REBA]?:[A-Z0-9_]+\.(FNT|TTF|TTE)` — and every font matching neither fails
with `ValueError ("Invalid font.")`.  Of the regex-accepted fonts, the
single character appends the `^A` fragment, while the character-plus-newline
form passes the regex and then raises `TypeError` in the `%c` conversion. -/
theorem write_text_font_shapes_amended :
    ∀ (l : Label) (ch cw : PyNum) (font o : String),
      ch.truthy → cw.truthy → font ≠ "" → o ∈ (["N", "R", "I", "B"] : List String) →
      (((writeTextFontStage l ch cw font o).2 = some (.valueErr "Invalid font.")
          ↔ (fontGlyphTok font.data = false ∧ fontPathTok font.data = false))
      ∧ ((fontGlyphTok font.data = false ∧ fontPathTok font.data = false) →
          writeTextFontStage l ch cw font o = (l, some (.valueErr "Invalid font.")))
      ∧ (fontGlyphTok font.data = true → font.data.length = 1 →
          (writeTextFontStage l ch cw font o).2 = none)
      ∧ (fontGlyphTok font.data = true → font.data.length ≠ 1 →
          writeTextFontStage l ch cw font o = (l, some .typeErr))
      ∧ (fontGlyphTok font.data = false → fontPathTok font.data = true →
          (writeTextFontStage l ch cw font o).2 = none)) := by
  intro l ch cw font o hch hcw hf ho
  fin_cases ho
  all_goals (
    unfold writeTextFontStage
    rw [if_pos ⟨hch, hcw, hf, by decide⟩, if_pos (by decide)]
    by_cases h1 : fontGlyphTok font.data = true
    · rw [if_pos h1]
      by_cases hlen : font.data.length = 1
      · rw [if_pos hlen, if_pos (by decide)]
        simp [h1, hlen]
      · rw [if_neg hlen]
        simp [h1, hlen]
        exact hlen
    · rw [if_neg h1]
      by_cases h2 : fontPathTok font.data = true
      · rw [if_pos h2, if_pos (by decide)]
        simp [h1, h2, Bool.not_eq_true]
      · rw [if_neg h2]
        simp [h1, h2, Bool.not_eq_true])

/-- Witness for the amended C6 at font `"0"`. -/
theorem write_text_font_shapes_amended_witness :
    (5 : PyNum).truthy ∧ (4 : PyNum).truthy ∧ ("0" : String) ≠ ""
    ∧ "N" ∈ (["N", "R", "I", "B"] : List String)
    ∧ (((writeTextFontStage (Label.init 65 110 12 false) 5 4 "0" "N").2
          = some (.valueErr "Invalid font.")
        ↔ (fontGlyphTok "0".data = false ∧ fontPathTok "0".data = false))
      ∧ ((fontGlyphTok "0".data = false ∧ fontPathTok "0".data = false) →
          writeTextFontStage (Label.init 65 110 12 false) 5 4 "0" "N"
            = (Label.init 65 110 12 false, some (.valueErr "Invalid font.")))
      ∧ (fontGlyphTok "0".data = true → "0".data.length = 1 →
          (writeTextFontStage (Label.init 65 110 12 false) 5 4 "0" "N").2 = none)
      ∧ (fontGlyphTok "0".data = true → "0".data.length ≠ 1 →
          writeTextFontStage (Label.init 65 110 12 false) 5 4 "0" "N"
            = (Label.init 65 110 12 false, some .typeErr))
      ∧ (fontGlyphTok "0".data = false → fontPathTok "0".data = true →
          (writeTextFontStage (Label.init 65 110 12 false) 5 4 "0" "N").2 = none)) :=
  ⟨by decide, by decide, by decide, by decide,
    write_text_font_shapes_amended (Label.init 65 110 12 false) 5 4 "0" "N"
      (by decide) (by decide) (by decide) (by decide)⟩

/-! ## Proportional height of graphics (C7) -/

/-- C7 (counterexample): a 3×2-pixel bitmap at `widthMm = 5` resolves the
height to `int(2/3·5) = 3` millimeters, not to the exact proportional value
`10/3`: the code truncates to a whole millimeter. -/
theorem upload_height_trunc_cex :
    (upload_graphic (Label.init 65 110 1 false) "G" ⟨3, 2, fun _ _ => 255⟩ 5 0).2
      = .ok (PyNum.ofInt 3)
    ∧ ¬ PyNum.equiv (PyNum.ofInt 3) ((PyNum.ofInt 2).div (PyNum.ofInt 3) * 5) :=
  ⟨rfl, by decide⟩

/-- C7 (amended): with `height = 0` (omitted) the resolved height is
`int((nativeHeight/nativeWidth)·widthMm)` — the proportional value truncated
to a whole number of millimeters — and that value is returned by both
`upload_graphic` and `write_graphic`; `upload_graphic` fails when the name
length is outside `[1, 8]`; the 200×100 example resolves to exactly 25. -/
theorem upload_height_amended :
    (∀ (l : Label) (nm : String) (img : Img) (w : PyNum),
      1 ≤ nm.data.length → nm.data.length ≤ 8 →
      (upload_graphic l nm img w 0).2
        = .ok (PyNum.ofInt (pyint ((PyNum.ofInt img.h).div (PyNum.ofInt img.w) * w))))
    ∧ (∀ (l : Label) (nm : String) (img : Img) (w h : PyNum),
      ¬ (1 ≤ nm.data.length ∧ nm.data.length ≤ 8) →
      upload_graphic l nm img w h = (l, .error (.assertFail "filename must have length [1:8]")))
    ∧ (∀ (l : Label) (img : Img) (w : PyNum),
      (write_graphic l img w 0 "A").2
        = .ok (PyNum.ofInt (pyint ((PyNum.ofInt img.h).div (PyNum.ofInt img.w) * w))))
    ∧ pyint ((PyNum.ofInt 100).div (PyNum.ofInt 200) * 50) = 25 := by
  have h0 : ¬ (0 : PyNum).truthy := by decide
  refine ⟨?_, ?_, ?_, by decide⟩
  · intro l nm img w h1 h8
    rw [upload_graphic, if_pos ⟨h1, h8⟩]
    rw [if_pos h0]
    simp [convert_image]
  · intro l nm img w h hbad
    rw [upload_graphic, if_neg hbad]
  · intro l img w
    rw [write_graphic, if_pos h0]
    simp [convert_image]

/-- Witness for the amended C7: the spec's 200×100 example. -/
theorem upload_height_amended_witness :
    (1 ≤ "G".data.length ∧ "G".data.length ≤ 8)
    ∧ (upload_graphic (Label.init 65 110 1 false) "G" ⟨200, 100, fun _ _ => 255⟩ 50 0).2
        = .ok (PyNum.ofInt (pyint ((PyNum.ofInt 100).div (PyNum.ofInt 200) * 50))) :=
  ⟨by decide,
    upload_height_amended.1 (Label.init 65 110 1 false) "G" ⟨200, 100, fun _ _ => 255⟩ 50
      (by decide) (by decide)⟩

/-! ## Exact-value lemmas for the dot arithmetic -/

/-- Truncation of an exact integer value is that integer. -/
theorem pyint_exact (q : PyNum) (n : Int) (hd : 0 < q.den) (h : q.num = n * q.den) :
    pyint q = n := by
  show Int.tdiv q.num q.den = n
  rw [h, Int.mul_tdiv_cancel _ (ne_of_gt hd)]

/-- `math.ceil(q / 8)` of an exact integer value `n` is `ceil(n/8)`. -/
theorem pyceil_div8 (q : PyNum) (n : Int) (hd : 0 < q.den) (h : q.num = n * q.den) :
    pyceil (q.div (PyNum.ofInt 8)) = cdiv8 n := by
  show -(-(q.num * 1) / (q.den * 8)) = cdiv8 n
  rw [mul_one, h, ← neg_mul, mul_comm (-n) q.den, Int.mul_ediv_mul_of_pos _ _ hd]
  rfl

/-- Truncating `B · q` when `q` has the exact integer value `m` gives `B·m`. -/
theorem pyint_scale (B : Int) (hq dq : PyNum) (m : Int) (hd : 0 < (hq * dq).den)
    (h : (hq * dq).num = m * (hq * dq).den) :
    pyint (PyNum.ofInt B * hq * dq) = B * m := by
  apply pyint_exact
  · show 0 < 1 * hq.den * dq.den
    rw [one_mul]
    exact hd
  · show B * hq.num * dq.num = B * m * (1 * hq.den * dq.den)
    have h' : hq.num * dq.num = m * (hq.den * dq.den) := h
    calc B * hq.num * dq.num = B * (hq.num * dq.num) := by ring
      _ = B * (m * (hq.den * dq.den)) := by rw [h']
      _ = B * m * (1 * hq.den * dq.den) := by ring

/-! ## Graphic size fields (C2) -/

/-- C2 (counterexample): `write_graphic` at 2 dots/mm with `widthMm = 4.125`
(8.25 dots, a dyadic value, exact in floats) emits `bytesPerRow = ceil(8.25/8)
= 2` and `totalBytes = 8`, although the bitmap is resized to
`int(8.25) = 8 = round(8.25)` dots, for which the claim's formula gives
`bytesPerRow = ceil(8/8) = 1` (and `totalBytes = 1·4 = 4`). -/
theorem graphic_size_fields_cex :
    (write_graphic (Label.init 65 110 2 false) ⟨1, 1, fun _ _ => 255⟩ ⟨33, 8⟩ 2 "A").1.code
      = str "^XA^GFA,8,8,2,00000000"
    ∧ pyround ((⟨33, 8⟩ : PyNum) * (2 : PyNum)) = pyint ((⟨33, 8⟩ : PyNum) * (2 : PyNum))
    ∧ cdiv8 (pyround ((⟨33, 8⟩ : PyNum) * (2 : PyNum))) = 1
    ∧ (2 : Int) ≠ 1 := by decide

/-- C2 (amended): the claim's formulas hold exactly when the dot dimensions
`widthMm·dpmm = n` and `heightMm·dpmm = m` are whole numbers: the bitmap is
resized to `n × m`, the emitted `bytesPerRow` is `ceil(n/8)` and the emitted
`totalBytes` is `bytesPerRow · m` (for `n = 96`, `m = 50`: 12 and 600).  In
general the source computes `bytesPerRow = ceil(widthMm·dpmm/8)` on the
un-truncated dot width and `totalBytes = int(bytesPerRow·heightMm·dpmm)`,
which differ from the claim at fractional dot values. -/
theorem graphic_size_fields_amended :
    (∀ (l : Label) (nm : String) (img : Img) (w h : PyNum) (n m : Int),
      1 ≤ nm.data.length → nm.data.length ≤ 8 → h.truthy →
      0 < (w * l.dpmm).den → 0 < (h * l.dpmm).den →
      (w * l.dpmm).num = n * (w * l.dpmm).den →
      (h * l.dpmm).num = m * (h * l.dpmm).den →
      (upload_graphic l nm img w h).1.code
        = l.code ++ (str "~DG" ++ nm.data ++ str ".GRF," ++ fmtInt (cdiv8 n * m) ++ str "," ++
            fmtInt (cdiv8 n) ++ str "," ++ hexUpper (imgBytes (resizeImg img n.toNat m.toNat))))
    ∧ (∀ (l : Label) (img : Img) (w h : PyNum) (n m : Int),
      h.truthy →
      0 < (w * l.dpmm).den → 0 < (h * l.dpmm).den →
      (w * l.dpmm).num = n * (w * l.dpmm).den →
      (h * l.dpmm).num = m * (h * l.dpmm).den →
      (write_graphic l img w h "A").1.code
        = l.code ++ (str "^GFA," ++
            fmtNat (hexUpper (imgBytes (resizeImg img n.toNat m.toNat))).length ++ str "," ++
            fmtInt (cdiv8 n * m) ++ str "," ++ fmtInt (cdiv8 n) ++ str "," ++
            hexUpper (imgBytes (resizeImg img n.toNat m.toNat))))
    ∧ (cdiv8 96 = 12 ∧ cdiv8 96 * 50 = 600) := by
  refine ⟨?_, ?_, by decide, by decide⟩
  · intro l nm img w h n m h1 h8 ht hwd hhd hwn hhn
    rw [upload_graphic, if_pos ⟨h1, h8⟩, if_neg (not_not_intro ht)]
    rw [pyceil_div8 _ n hwd hwn, pyint_scale (cdiv8 n) h l.dpmm m hhd hhn]
    rw [convert_image, if_pos rfl]
    rw [pyint_exact _ n hwd hwn, pyint_exact _ m hhd hhn]
  · intro l img w h n m ht hwd hhd hwn hhn
    rw [write_graphic, if_neg (not_not_intro ht)]
    rw [pyceil_div8 _ n hwd hwn, pyint_scale (cdiv8 n) h l.dpmm m hhd hhn]
    rw [convert_image, if_pos rfl]
    rw [pyint_exact _ n hwd hwn, pyint_exact _ m hhd hhn]
    simp [List.append_assoc]

/-- Witness for the amended C2 at a whole-dot input. -/
theorem graphic_size_fields_amended_witness :
    (1 ≤ "LOGO".data.length) ∧ ("LOGO".data.length ≤ 8) ∧ (1 : PyNum).truthy
    ∧ (0 : Int) < ((0 : PyNum) * (Label.init 65 110 12 false).dpmm).den
    ∧ (0 : Int) < ((1 : PyNum) * (Label.init 65 110 12 false).dpmm).den
    ∧ ((0 : PyNum) * (Label.init 65 110 12 false).dpmm).num
        = 0 * ((0 : PyNum) * (Label.init 65 110 12 false).dpmm).den
    ∧ ((1 : PyNum) * (Label.init 65 110 12 false).dpmm).num
        = 12 * ((1 : PyNum) * (Label.init 65 110 12 false).dpmm).den
    ∧ (upload_graphic (Label.init 65 110 12 false) "LOGO" ⟨1, 1, fun _ _ => 255⟩ 0 1).1.code
        = (Label.init 65 110 12 false).code ++ (str "~DG" ++ "LOGO".data ++ str ".GRF," ++
            fmtInt (cdiv8 0 * 12) ++ str "," ++ fmtInt (cdiv8 0) ++ str "," ++
            hexUpper (imgBytes (resizeImg ⟨1, 1, fun _ _ => 255⟩ (Int.toNat 0) (Int.toNat 12)))) :=
  ⟨by decide, by decide, by decide, by decide, by decide, by decide, by decide,
    graphic_size_fields_amended.1 (Label.init 65 110 12 false) "LOGO" ⟨1, 1, fun _ _ => 255⟩
      0 1 0 12 (by decide) (by decide) (by decide) (by decide) (by decide) (by decide) (by decide)⟩

/-! ## Raster polarity and packing (C3) -/

theorem bitN_white (img : Img) (hw : ∀ x y, img.px x y = 255) (y x : Nat) :
    bitN img y x = 0 := by
  simp [bitN, pxBit, hw]

theorem byteAt_white (img : Img) (hw : ∀ x y, img.px x y = 255) (y b : Nat) :
    byteAt img y b = 0 := by
  simp [byteAt, bitN_white img hw]

theorem bitN_black (img : Img) (hb : ∀ x y, img.px x y = 0) (y x : Nat) (hx : x < img.w) :
    bitN img y x = 1 := by
  simp [bitN, pxBit, hb, hx]

theorem byteAt_black (img : Img) (hb : ∀ x y, img.px x y = 0) (y b : Nat)
    (hlt : 8 * b + 7 < img.w) : byteAt img y b = 255 := by
  unfold byteAt
  rw [bitN_black img hb y (8 * b) (by omega), bitN_black img hb y (8 * b + 1) (by omega),
    bitN_black img hb y (8 * b + 2) (by omega), bitN_black img hb y (8 * b + 3) (by omega),
    bitN_black img hb y (8 * b + 4) (by omega), bitN_black img hb y (8 * b + 5) (by omega),
    bitN_black img hb y (8 * b + 6) (by omega), bitN_black img hb y (8 * b + 7) (by omega)]

theorem map_const_on {α β : Type} (l : List α) (f : α → β) (c : β)
    (h : ∀ a ∈ l, f a = c) : l.map f = List.replicate l.length c := by
  induction l with
  | nil => rfl
  | cons a l ih =>
    rw [List.map_cons, h a (List.mem_cons_self a l),
      ih (fun x hx => h x (List.mem_cons_of_mem a hx)), List.length_cons, List.replicate_succ]

theorem flatten_replicate {α : Type} (n k : Nat) (c : α) :
    (List.replicate n (List.replicate k c)).flatten = List.replicate (n * k) c := by
  induction n with
  | zero => rw [Nat.zero_mul]; rfl
  | succ n ih =>
    rw [List.replicate_succ, List.flatten_cons, ih, ← List.replicate_add, Nat.succ_mul,
      Nat.add_comm (n * k) k]

theorem hexUpper_replicate_zero (n : Nat) :
    hexUpper (List.replicate n 0) = List.replicate (2 * n) '0' := by
  induction n with
  | zero => rfl
  | succ n ih =>
    have h2 : 2 * (n + 1) = 2 * n + 1 + 1 := by omega
    show ((List.replicate (n + 1) 0).map byteHex).flatten = List.replicate (2 * (n + 1)) '0'
    rw [List.replicate_succ, List.map_cons, List.flatten_cons, h2, List.replicate_succ,
      List.replicate_succ]
    exact congrArg (fun t => '0' :: '0' :: t) ih

theorem hexUpper_replicate_ff (n : Nat) :
    hexUpper (List.replicate n 255) = List.replicate (2 * n) 'F' := by
  induction n with
  | zero => rfl
  | succ n ih =>
    have h2 : 2 * (n + 1) = 2 * n + 1 + 1 := by omega
    show ((List.replicate (n + 1) 255).map byteHex).flatten = List.replicate (2 * (n + 1)) 'F'
    rw [List.replicate_succ, List.map_cons, List.flatten_cons, h2, List.replicate_succ,
      List.replicate_succ]
    exact congrArg (fun t => 'F' :: 'F' :: t) ih

theorem imgBytes_white (img : Img) (hw : ∀ x y, img.px x y = 255) :
    imgBytes img = List.replicate (img.h * ((img.w + 7) / 8)) 0 := by
  unfold imgBytes
  have hrow : ∀ y ∈ List.range img.h, rowBytes img y = List.replicate ((img.w + 7) / 8) 0 := by
    intro y _
    unfold rowBytes
    rw [map_const_on _ _ 0 (fun b _ => byteAt_white img hw y b), List.length_range]
  rw [map_const_on _ _ _ hrow, List.length_range, flatten_replicate]

theorem imgBytes_black (img : Img) (hb : ∀ x y, img.px x y = 0) (hdiv : img.w % 8 = 0) :
    imgBytes img = List.replicate (img.h * ((img.w + 7) / 8)) 255 := by
  unfold imgBytes
  have hrow : ∀ y ∈ List.range img.h, rowBytes img y = List.replicate ((img.w + 7) / 8) 255 := by
    intro y _
    unfold rowBytes
    rw [map_const_on _ _ 255 ?_, List.length_range]
    intro b hbmem
    have hb8 : b < (img.w + 7) / 8 := List.mem_range.mp hbmem
    exact byteAt_black img hb y b (by omega)
  rw [map_const_on _ _ _ hrow, List.length_range, flatten_replicate]

/-- C3 (counterexample): an all-black 4×1 bitmap (4 dots wide, not a byte
multiple) encodes to the byte 0xF0 — the four padding bits of the row's
last byte are clear — not to 0xFF as the claim requires. -/
theorem raster_allblack_padding_cex :
    convert_image (Label.init 65 110 1 false) ⟨4, 1, fun _ _ => 0⟩ 4 1 "A" = .ok (str "F0")
    ∧ str "F0" ≠ str "FF" :=
  ⟨rfl, by decide⟩

/-- C3 (amended): the raster data is the upper-case hex encoding of the
bitmap packed one bit per pixel, MSB first per row, with inverted polarity:
an all-white bitmap encodes to all-zero bytes (always), and an all-black
bitmap encodes to 0xFF in every byte whenever the resized width is a
multiple of 8; otherwise the final byte of each row keeps its padding bits
clear. -/
theorem raster_polarity_amended :
    ∀ (l : Label) (img : Img) (w h : PyNum),
      ((∀ x y, img.px x y = 255) →
        convert_image l img w h "A"
          = .ok (List.replicate
              (2 * ((pyint (h * l.dpmm)).toNat * (((pyint (w * l.dpmm)).toNat + 7) / 8))) '0'))
      ∧ ((∀ x y, img.px x y = 0) → (pyint (w * l.dpmm)).toNat % 8 = 0 →
        convert_image l img w h "A"
          = .ok (List.replicate
              (2 * ((pyint (h * l.dpmm)).toNat * (((pyint (w * l.dpmm)).toNat + 7) / 8))) 'F')) := by
  intro l img w h
  constructor
  · intro hw
    rw [convert_image, if_pos rfl]
    have hw' : ∀ x y,
        (resizeImg img (pyint (w * l.dpmm)).toNat (pyint (h * l.dpmm)).toNat).px x y = 255 :=
      fun x y => hw _ _
    rw [show hexUpper (imgBytes (resizeImg img (pyint (w * l.dpmm)).toNat
            (pyint (h * l.dpmm)).toNat))
          = List.replicate
              (2 * ((pyint (h * l.dpmm)).toNat * (((pyint (w * l.dpmm)).toNat + 7) / 8))) '0'
        from by rw [imgBytes_white _ hw', hexUpper_replicate_zero]; rfl]
  · intro hb hdiv
    rw [convert_image, if_pos rfl]
    have hb' : ∀ x y,
        (resizeImg img (pyint (w * l.dpmm)).toNat (pyint (h * l.dpmm)).toNat).px x y = 0 :=
      fun x y => hb _ _
    rw [show hexUpper (imgBytes (resizeImg img (pyint (w * l.dpmm)).toNat
            (pyint (h * l.dpmm)).toNat))
          = List.replicate
              (2 * ((pyint (h * l.dpmm)).toNat * (((pyint (w * l.dpmm)).toNat + 7) / 8))) 'F'
        from by rw [imgBytes_black _ hb' hdiv, hexUpper_replicate_ff]; rfl]

/-- Witness for the amended C3 on 8×1 all-white and all-black bitmaps. -/
theorem raster_polarity_amended_witness :
    convert_image (Label.init 65 110 1 false) ⟨8, 1, fun _ _ => 255⟩ 8 1 "A"
      = .ok (List.replicate 2 '0')
    ∧ ((pyint ((8 : PyNum) * (Label.init 65 110 1 false).dpmm)).toNat % 8 = 0
      ∧ convert_image (Label.init 65 110 1 false) ⟨8, 1, fun _ _ => 0⟩ 8 1 "A"
        = .ok (List.replicate 2 'F')) :=
  ⟨(raster_polarity_amended (Label.init 65 110 1 false) ⟨8, 1, fun _ _ => 255⟩ 8 1).1
      (fun _ _ => rfl),
   by decide,
   (raster_polarity_amended (Label.init 65 110 1 false) ⟨8, 1, fun _ _ => 0⟩ 8 1).2
      (fun _ _ => rfl) (by decide)⟩

end ZPL
